import Mathlib

/-!
Verification of the AnalyticsServer event-ingestion service (src/app/main.py).

The development shallowly embeds the two FastAPI handlers (`process_event`,
`get_reports`), the pydantic input validation (`EventInput`, `ReportInput`),
the SQLite-backed event table, the Python `datetime.now(timezone.utc)
.isoformat()` timestamp encoding, and SQLite's BINARY-collation text
comparison used by the query `eventtimestamputc >= ?`.
-/

namespace AnalyticsServer

/-! ## Timestamps

Python `datetime` with `tzinfo = timezone.utc`: fields are naturals, with
the validity bounds enforced by the `datetime` constructor. -/

structure UTCTime where
  year : Nat
  month : Nat
  day : Nat
  hour : Nat
  minute : Nat
  second : Nat
  micro : Nat
deriving DecidableEq, Repr

/-- Bounds guaranteed by Python's `datetime` constructor
(MINYEAR = 1, MAXYEAR = 9999, microsecond in 0..999999). -/
def UTCTime.valid (t : UTCTime) : Prop :=
  1 ≤ t.year ∧ t.year ≤ 9999 ∧ 1 ≤ t.month ∧ t.month ≤ 12 ∧
  1 ≤ t.day ∧ t.day ≤ 31 ∧ t.hour ≤ 23 ∧ t.minute ≤ 59 ∧
  t.second ≤ 59 ∧ t.micro ≤ 999999

instance (t : UTCTime) : Decidable t.valid := by
  unfold UTCTime.valid; infer_instance

/-- Decimal digit characters as produced by Python string formatting. -/
def digitChar : Nat → Char
  | 0 => '0' | 1 => '1' | 2 => '2' | 3 => '3' | 4 => '4'
  | 5 => '5' | 6 => '6' | 7 => '7' | 8 => '8' | _ => '9'

/-- Zero-padded fixed-width decimal numeral, most significant digit first,
as produced by Python `%04d`-style formatting inside `isoformat`. -/
def padNum : Nat → Nat → List Char
  | 0, _ => []
  | w + 1, n => padNum w (n / 10) ++ [digitChar (n % 10)]

/-- The fractional-seconds part of `datetime.isoformat()` with the default
`timespec='auto'`: omitted entirely when `microsecond == 0`, otherwise a dot
followed by exactly six zero-padded digits. -/
def microSuffix (m : Nat) : List Char :=
  if m = 0 then [] else '.' :: padNum 6 m

/-- The UTC offset suffix `+00:00` printed for `timezone.utc`. -/
def tzSuffix : List Char :=
  ['+', '0', '0', ':', '0', '0']

/-- Character list of `datetime.isoformat()` for an aware UTC datetime:
`YYYY-MM-DDTHH:MM:SS[.ffffff]+00:00`. -/
def isoChars (t : UTCTime) : List Char :=
  padNum 4 t.year ++ '-' ::
  (padNum 2 t.month ++ '-' ::
  (padNum 2 t.day ++ 'T' ::
  (padNum 2 t.hour ++ ':' ::
  (padNum 2 t.minute ++ ':' ::
  (padNum 2 t.second ++ (microSuffix t.micro ++ tzSuffix))))))

/-- `datetime.now(timezone.utc).isoformat()` as a string. -/
def isoformat (t : UTCTime) : String :=
  ⟨isoChars t⟩

/-! ## SQLite BINARY-collation text comparison

SQLite compares TEXT values under the default BINARY collation by memcmp of
their UTF-8 bytes; since UTF-8 byte order coincides with code-point order,
this is character-wise comparison of code points, shorter string first on a
tie. -/

def lexLt : List Char → List Char → Bool
  | _, [] => false
  | [], _ :: _ => true
  | x :: xs, y :: ys =>
    if x.toNat < y.toNat then true
    else if y.toNat < x.toNat then false
    else lexLt xs ys

/-- The SQL predicate `a >= b` on TEXT columns: not (a < b) under BINARY
collation. -/
def sqliteTextGe (a b : String) : Bool :=
  ! lexLt a.data b.data

/-! ## Chronological order on timestamps -/

/-- Strict chronological order, boolean form (lexicographic on the fields). -/
def chronoLt (a b : UTCTime) : Bool :=
  if a.year < b.year then true else if b.year < a.year then false
  else if a.month < b.month then true else if b.month < a.month then false
  else if a.day < b.day then true else if b.day < a.day then false
  else if a.hour < b.hour then true else if b.hour < a.hour then false
  else if a.minute < b.minute then true else if b.minute < a.minute then false
  else if a.second < b.second then true else if b.second < a.second then false
  else if a.micro < b.micro then true else if b.micro < a.micro then false
  else false

/-- Strict chronological order, propositional form. -/
def chronoLtP (a b : UTCTime) : Prop :=
  a.year < b.year ∨ (a.year = b.year ∧
  (a.month < b.month ∨ (a.month = b.month ∧
  (a.day < b.day ∨ (a.day = b.day ∧
  (a.hour < b.hour ∨ (a.hour = b.hour ∧
  (a.minute < b.minute ∨ (a.minute = b.minute ∧
  (a.second < b.second ∨ (a.second = b.second ∧
  a.micro < b.micro)))))))))))

instance (a b : UTCTime) : Decidable (chronoLtP a b) := by
  unfold chronoLtP; infer_instance

/-- Chronologically earlier or equal. -/
def chronoLeP (a b : UTCTime) : Prop :=
  chronoLtP a b ∨ a = b

instance (a b : UTCTime) : Decidable (chronoLeP a b) := by
  unfold chronoLeP; infer_instance

/-! ## Datetime subtraction

`datetime - timedelta(seconds=n)` on the proleptic Gregorian calendar,
via conversion to days-since-epoch (Howard Hinnant's civil-calendar
algorithms, which Python's datetime arithmetic agrees with). -/

/-- Days from civil date to 1970-01-01. -/
def daysFromCivil (y m d : Int) : Int :=
  let yy := if m ≤ 2 then y - 1 else y
  let era := yy.ediv 400
  let yoe := yy - era * 400
  let mp := if 2 < m then m - 3 else m + 9
  let doy := (153 * mp + 2).ediv 5 + d - 1
  let doe := yoe * 365 + yoe.ediv 4 - yoe.ediv 100 + doy
  era * 146097 + doe - 719468

/-- Civil date from days since 1970-01-01. -/
def civilFromDays (z0 : Int) : Int × Int × Int :=
  let z := z0 + 719468
  let era := z.ediv 146097
  let doe := z - era * 146097
  let yoe := (doe - doe.ediv 1460 + doe.ediv 36524 - doe.ediv 146096).ediv 365
  let y := yoe + era * 400
  let doy := doe - (365 * yoe + yoe.ediv 4 - yoe.ediv 100)
  let mp := (5 * doy + 2).ediv 153
  let d := doy - (153 * mp + 2).ediv 5 + 1
  let m := if mp < 10 then mp + 3 else mp - 9
  (if m ≤ 2 then y + 1 else y, m, d)

/-- Seconds from the Unix epoch (ignoring microseconds). -/
def toEpochSecs (t : UTCTime) : Int :=
  daysFromCivil t.year t.month t.day * 86400 +
    t.hour * 3600 + t.minute * 60 + t.second

/-- `t - timedelta(seconds=n)`: the threshold computation of `get_reports`.
An integral `timedelta` leaves the microsecond field unchanged. -/
def subSeconds (t : UTCTime) (n : Int) : UTCTime :=
  let total := toEpochSecs t - n
  let days := total.ediv 86400
  let rem := total.emod 86400
  let c := civilFromDays days
  { year := c.1.toNat, month := c.2.1.toNat, day := c.2.2.toNat,
    hour := (rem.ediv 3600).toNat,
    minute := ((rem.emod 3600).ediv 60).toNat,
    second := (rem.emod 60).toNat,
    micro := t.micro }

/-! ## Data model: the events table and request/response records -/

/-- One row of the SQLite `events` table. -/
structure Row where
  id : Nat
  eventtimestamputc : String
  userid : String
  eventname : String
deriving DecidableEq, Repr

/-- State of the SQLite database file: whether the `events` table exists,
its rows, and the next AUTOINCREMENT id. -/
structure DBState where
  tableCreated : Bool
  rows : List Row
  nextId : Nat
deriving DecidableEq, Repr

/-- `CREATE TABLE IF NOT EXISTS events (...)`: idempotent, touches no row. -/
def create_table_if_not_exists (db : DBState) : DBState :=
  { db with tableCreated := true }

/-- pydantic model `EventInput`. -/
structure EventInput where
  userid : String
  eventname : String
deriving DecidableEq, Repr

/-- pydantic model `ReportInput`; `lastseconds` is a plain `int` with no
range constraint. -/
structure ReportInput where
  lastseconds : Int
  userid : String
deriving DecidableEq, Repr

/-- pydantic model `EventOutput`: one element of a report response. -/
structure EventOutput where
  eventtimestamputc : String
  userid : String
  eventname : String
deriving DecidableEq, Repr

/-- pydantic model `ReportOutput`: the success body of `get_reports`. -/
structure ReportOutput where
  status : String
  events : List EventOutput
deriving DecidableEq, Repr

/-- The success body of `process_event` (a `dict[str, str]` with these
four keys). -/
structure SubmitResponse where
  status : String
  userid : String
  eventname : String
  eventtimestamputc : String
deriving DecidableEq, Repr

/-- `fastapi.HTTPException` (and FastAPI's 422 validation response). -/
structure HTTPError where
  statusCode : Nat
  detail : String
deriving DecidableEq, Repr

/-! ## JSON request bodies and pydantic validation -/

inductive Json where
  | str : String → Json
  | int : Int → Json
  | arr : List Json → Json
  | obj : List (String × Json) → Json
  | bool : Bool → Json
  | null : Json

def Json.isStr : Json → Bool
  | .str _ => true
  | _ => false

/-- First binding of a key in a JSON object body. -/
def jsonLookup : List (String × Json) → String → Option Json
  | [], _ => none
  | (k, v) :: rest, key => if k = key then some v else jsonLookup rest key

/-- pydantic validation of `EventInput`: both fields must be present and be
strings (pydantic v2 does not coerce ints or lists to `str`); extra fields
are ignored. -/
def parseEventInput (body : List (String × Json)) : Option EventInput :=
  match jsonLookup body "userid", jsonLookup body "eventname" with
  | some (Json.str u), some (Json.str e) => some ⟨u, e⟩
  | _, _ => none

/-- pydantic validation of `ReportInput`: `lastseconds` must be an integer
(any integer, negatives included) and `userid` a string. -/
def parseReportInput (body : List (String × Json)) : Option ReportInput :=
  match jsonLookup body "lastseconds", jsonLookup body "userid" with
  | some (Json.int n), some (Json.str u) => some ⟨n, u⟩
  | _, _ => none

/-! ## The handlers -/

/-- Handler body of `POST /process_event`: takes the current UTC time,
formats it once with `isoformat`, executes the parameterized
`INSERT INTO events (eventtimestamputc, userid, eventname) VALUES (?, ?, ?)`
— the `?` placeholders bind the strings as opaque data, so the inserted row
holds them byte-for-byte — commits, and returns the response dict echoing
the same timestamp string. -/
def process_event (now : UTCTime) (db : DBState) (event_data : EventInput) :
    DBState × SubmitResponse :=
  let event_timestamp := isoformat now
  let row : Row :=
    { id := db.nextId, eventtimestamputc := event_timestamp,
      userid := event_data.userid, eventname := event_data.eventname }
  ({ db with rows := db.rows ++ [row], nextId := db.nextId + 1 },
   { status := "success", userid := event_data.userid,
     eventname := event_data.eventname,
     eventtimestamputc := event_timestamp })

/-- `POST /process_event` including the FastAPI/pydantic validation layer:
a body rejected by `parseEventInput` yields a 422 before the handler runs,
so the database is untouched. -/
def handle_process_event (now : UTCTime) (db : DBState)
    (body : List (String × Json)) : DBState × Except HTTPError SubmitResponse :=
  match parseEventInput body with
  | none => (db, Except.error { statusCode := 422, detail := "validation error" })
  | some event_data =>
    let r := process_event now db event_data
    (r.1, Except.ok r.2)

/-- The SELECT of `get_reports`: computes
`time_threshold = datetime.now(timezone.utc) - timedelta(seconds=lastseconds)`,
formats it with `isoformat`, and runs the parameterized query
`SELECT ... FROM events WHERE userid = ? AND eventtimestamputc >= ?`
(BINARY-collation string comparison, values bound as opaque data). -/
def run_query (now : UTCTime) (db : DBState) (report_data : ReportInput) :
    List Row :=
  let time_threshold_str := isoformat (subSeconds now report_data.lastseconds)
  db.rows.filter fun r =>
    r.userid == report_data.userid &&
      sqliteTextGe r.eventtimestamputc time_threshold_str

/-- The try/except of `get_reports`: a successful fetch is mapped row by row
into response dicts under status `success`; any exception `e` raised by the
storage layer is turned into `HTTPException(status_code=500, detail=str(e))`. -/
def get_reports_core (fetched : Except String (List Row)) :
    Except HTTPError ReportOutput :=
  match fetched with
  | Except.ok rows =>
    Except.ok
      { status := "success",
        events := rows.map fun r =>
          { eventtimestamputc := r.eventtimestamputc,
            userid := r.userid, eventname := r.eventname } }
  | Except.error e => Except.error { statusCode := 500, detail := e }

/-- Handler body of `POST /get_reports` on the path where storage succeeds. -/
def get_reports (now : UTCTime) (db : DBState) (report_data : ReportInput) :
    Except HTTPError ReportOutput :=
  get_reports_core (Except.ok (run_query now db report_data))

/-! ## Operations in scope, for the append-only invariant -/

inductive Op where
  | createTable
  | submit (now : UTCTime) (body : List (String × Json))
  | query (now : UTCTime) (report_data : ReportInput)

/-- Effect of each in-scope operation on the database state; a SELECT does
not modify the database. -/
def step (db : DBState) : Op → DBState
  | Op.createTable => create_table_if_not_exists db
  | Op.submit now body => (handle_process_event now db body).1
  | Op.query _ _ => db

/-! ## Lemmas about the string comparison and the timestamp encoding -/

theorem digitChar_toNat (d : Nat) (h : d < 10) : (digitChar d).toNat = 48 + d := by
  interval_cases d <;> rfl

theorem lexLt_cons (x y : Char) (xs ys : List Char) :
    lexLt (x :: xs) (y :: ys) =
      if x.toNat < y.toNat then true
      else if y.toNat < x.toNat then false
      else lexLt xs ys := rfl

theorem lexLt_irrefl (xs : List Char) : lexLt xs xs = false := by
  induction xs with
  | nil => rfl
  | cons x xs ih => rw [lexLt_cons]; simp [ih]

theorem lexLt_cons_same (c : Char) (xs ys : List Char) :
    lexLt (c :: xs) (c :: ys) = lexLt xs ys := by
  rw [lexLt_cons]; simp

theorem lexLt_padNum (w : Nat) :
    ∀ (a b : Nat) (s t : List Char), a < 10 ^ w → b < 10 ^ w →
      lexLt (padNum w a ++ s) (padNum w b ++ t) =
        (if a < b then true else if b < a then false else lexLt s t) := by
  induction w with
  | zero =>
    intro a b s t ha hb
    simp only [pow_zero, Nat.lt_one_iff] at ha hb
    subst ha; subst hb
    simp [padNum]
  | succ w ih =>
    intro a b s t ha hb
    have h10 : 10 ^ (w + 1) = 10 ^ w * 10 := pow_succ 10 w
    have hda : a / 10 < 10 ^ w := by omega
    have hdb : b / 10 < 10 ^ w := by omega
    simp only [padNum, List.append_assoc, List.singleton_append]
    rw [ih (a / 10) (b / 10) _ _ hda hdb, lexLt_cons,
      digitChar_toNat _ (Nat.mod_lt _ (by norm_num)),
      digitChar_toNat _ (Nat.mod_lt _ (by norm_num))]
    split_ifs <;> first | rfl | (exfalso; omega)

theorem lexLt_microSuffix (m1 m2 : Nat) (h1 : m1 < 1000000) (h2 : m2 < 1000000) :
    lexLt (microSuffix m1 ++ tzSuffix) (microSuffix m2 ++ tzSuffix) =
      if m1 < m2 then true else if m2 < m1 then false else false := by
  have etz : tzSuffix = '+' :: ['0', '0', ':', '0', '0'] := rfl
  by_cases hm1 : m1 = 0 <;> by_cases hm2 : m2 = 0
  · subst hm1; subst hm2
    simp [microSuffix, lexLt_irrefl]
  · subst hm1
    have e1 : microSuffix 0 = [] := by simp [microSuffix]
    have e2 : microSuffix m2 = '.' :: padNum 6 m2 := by simp [microSuffix, hm2]
    rw [e1, e2, List.nil_append, List.cons_append, etz, lexLt_cons,
      if_pos (by decide : ('+').toNat < ('.').toNat),
      if_pos (Nat.pos_of_ne_zero hm2)]
  · subst hm2
    have e1 : microSuffix 0 = [] := by simp [microSuffix]
    have e2 : microSuffix m1 = '.' :: padNum 6 m1 := by simp [microSuffix, hm1]
    rw [e1, e2, List.nil_append, List.cons_append, etz, lexLt_cons,
      if_neg (by decide : ¬ ('.').toNat < ('+').toNat),
      if_pos (by decide : ('+').toNat < ('.').toNat),
      if_neg (by omega : ¬ m1 < 0), if_pos (Nat.pos_of_ne_zero hm1)]
  · have e1 : microSuffix m1 = '.' :: padNum 6 m1 := by simp [microSuffix, hm1]
    have e2 : microSuffix m2 = '.' :: padNum 6 m2 := by simp [microSuffix, hm2]
    rw [e1, e2, List.cons_append, List.cons_append, lexLt_cons_same,
      lexLt_padNum 6 _ _ _ _ (by norm_num; omega) (by norm_num; omega),
      lexLt_irrefl]

theorem lexLt_isoChars (t1 t2 : UTCTime) (h1 : t1.valid) (h2 : t2.valid) :
    lexLt (isoChars t1) (isoChars t2) = chronoLt t1 t2 := by
  obtain ⟨a1, a2, a3, a4, a5, a6, a7, a8, a9, a10⟩ := h1
  obtain ⟨b1, b2, b3, b4, b5, b6, b7, b8, b9, b10⟩ := h2
  unfold isoChars
  rw [lexLt_padNum 4 _ _ _ _ (by norm_num; omega) (by norm_num; omega), lexLt_cons_same,
    lexLt_padNum 2 _ _ _ _ (by norm_num; omega) (by norm_num; omega), lexLt_cons_same,
    lexLt_padNum 2 _ _ _ _ (by norm_num; omega) (by norm_num; omega), lexLt_cons_same,
    lexLt_padNum 2 _ _ _ _ (by norm_num; omega) (by norm_num; omega), lexLt_cons_same,
    lexLt_padNum 2 _ _ _ _ (by norm_num; omega) (by norm_num; omega), lexLt_cons_same,
    lexLt_padNum 2 _ _ _ _ (by norm_num; omega) (by norm_num; omega),
    lexLt_microSuffix _ _ (by omega) (by omega)]
  rfl

theorem ite_lt_eq_true_iff {x y : Nat} {r : Bool} :
    (if x < y then true else if y < x then false else r) = true ↔
      (x < y ∨ (x = y ∧ r = true)) := by
  by_cases h1 : x < y
  · simp [h1]
  · by_cases h2 : y < x
    · simp [h1, h2]; omega
    · have h3 : x = y := by omega
      simp [h1, h2, h3]

theorem ite_lt_eq_true_iff_final {x y : Nat} :
    (if x < y then true else if y < x then false else false) = true ↔ x < y := by
  by_cases h1 : x < y
  · simp [h1]
  · by_cases h2 : y < x <;> simp [h1, h2]

theorem chronoLt_eq_true_iff (a b : UTCTime) : chronoLt a b = true ↔ chronoLtP a b := by
  unfold chronoLt chronoLtP
  simp only [ite_lt_eq_true_iff_final, ite_lt_eq_true_iff,
    show (false = true) ↔ False from by simp, and_false, or_false]

theorem chronoLtP_asymm (a b : UTCTime) (h : chronoLtP a b) : ¬ chronoLtP b a := by
  unfold chronoLtP at h ⊢; omega

theorem chronoLtP_connex (a b : UTCTime)
    (h1 : ¬ chronoLtP a b) (h2 : ¬ chronoLtP b a) : a = b := by
  unfold chronoLtP at h1 h2
  cases a; cases b
  dsimp only at h1 h2
  simp only [UTCTime.mk.injEq]
  omega

theorem chronoLtP_irrefl (a : UTCTime) : ¬ chronoLtP a a := by
  unfold chronoLtP; omega

theorem chronoLeP_iff_not_lt (a b : UTCTime) : chronoLeP a b ↔ ¬ chronoLtP b a := by
  constructor
  · rintro (h | rfl)
    · exact chronoLtP_asymm a b h
    · exact chronoLtP_irrefl a
  · intro h
    by_cases hab : chronoLtP a b
    · exact Or.inl hab
    · exact Or.inr (chronoLtP_connex a b hab h)

/-- The SQL comparison `eventtimestamputc >= threshold` on two `isoformat`
strings agrees with chronological order. -/
theorem sqliteTextGe_isoformat (t th : UTCTime) (ht : t.valid) (hth : th.valid) :
    sqliteTextGe (isoformat t) (isoformat th) = true ↔ chronoLeP th t := by
  unfold sqliteTextGe isoformat
  rw [show (String.mk (isoChars t)).data = isoChars t from rfl,
    show (String.mk (isoChars th)).data = isoChars th from rfl,
    lexLt_isoChars t th ht hth]
  rw [Bool.not_eq_true']
  rw [chronoLeP_iff_not_lt]
  constructor
  · intro h hc
    rw [(chronoLt_eq_true_iff t th).mpr hc] at h
    cases h
  · intro h
    cases hc : chronoLt t th
    · rfl
    · exact absurd ((chronoLt_eq_true_iff t th).mp hc) h

/-! ## Helpers about the handlers -/

theorem mem_run_query_iff (now : UTCTime) (db : DBState) (report_data : ReportInput)
    (r : Row) :
    r ∈ run_query now db report_data ↔
      r ∈ db.rows ∧ r.userid = report_data.userid ∧
        sqliteTextGe r.eventtimestamputc
          (isoformat (subSeconds now report_data.lastseconds)) = true := by
  unfold run_query
  rw [List.mem_filter, Bool.and_eq_true, beq_iff_eq]

theorem step_rows_extend (db : DBState) (op : Op) :
    ∃ tail, (step db op).rows = db.rows ++ tail := by
  cases op with
  | createTable => exact ⟨[], by simp [step, create_table_if_not_exists]⟩
  | query now rd => exact ⟨[], by simp [step]⟩
  | submit now body =>
    unfold step handle_process_event
    cases hp : parseEventInput body with
    | none => exact ⟨[], by simp [hp]⟩
    | some ed =>
      exact ⟨[⟨db.nextId, isoformat now, ed.userid, ed.eventname⟩],
        by simp [hp, process_event]⟩

/-! ## Claim theorems -/

/-- C3: for timestamps produced by the server's encoding
(`datetime.now(timezone.utc).isoformat()`), t1 is chronologically earlier
than or equal to t2 exactly when the encoded string of t1 is
lexicographically at most the encoded string of t2 under the SQLite string
comparison used by the query (`t2 >= t1`), including when one timestamp has
zero microseconds (shorter, variable-width encoding) and the other does
not. -/
theorem iso_string_order_matches_chronological (t1 t2 : UTCTime)
    (h1 : t1.valid) (h2 : t2.valid) :
    chronoLeP t1 t2 ↔ sqliteTextGe (isoformat t2) (isoformat t1) = true :=
  (sqliteTextGe_isoformat t2 t1 h2 h1).symm

theorem iso_string_order_matches_chronological_witness :
    (UTCTime.mk 2025 3 4 5 6 7 0).valid ∧
    (UTCTime.mk 2025 3 4 5 6 7 123456).valid ∧
    (chronoLeP ⟨2025, 3, 4, 5, 6, 7, 0⟩ ⟨2025, 3, 4, 5, 6, 7, 123456⟩ ↔
      sqliteTextGe (isoformat ⟨2025, 3, 4, 5, 6, 7, 123456⟩)
        (isoformat ⟨2025, 3, 4, 5, 6, 7, 0⟩) = true) :=
  ⟨by decide, by decide,
    iso_string_order_matches_chronological _ _ (by decide) (by decide)⟩

/-- C2: for every stored log and query input, `get_reports` computes
`threshold = now_utc - lastseconds` and returns exactly the stored events
whose `userid` equals the input and whose timestamp is chronologically at
or after the threshold: no matching event is omitted and no non-matching
event is included. Each stored row's timestamp is the server encoding of
some valid instant, recorded by the map `ts`. -/
theorem get_reports_exact_window
    (now : UTCTime) (db : DBState) (report_data : ReportInput)
    (ts : Row → UTCTime)
    (hrows : ∀ r ∈ db.rows,
      r.eventtimestamputc = isoformat (ts r) ∧ (ts r).valid)
    (hth : (subSeconds now report_data.lastseconds).valid) :
    ∃ evs, get_reports now db report_data = Except.ok ⟨"success", evs⟩ ∧
      ∀ e, e ∈ evs ↔ ∃ r, r ∈ db.rows ∧ r.userid = report_data.userid ∧
        chronoLeP (subSeconds now report_data.lastseconds) (ts r) ∧
        e = ⟨r.eventtimestamputc, r.userid, r.eventname⟩ := by
  have hrep : get_reports now db report_data = Except.ok ⟨"success",
      (run_query now db report_data).map
        (fun r => EventOutput.mk r.eventtimestamputc r.userid r.eventname)⟩ := rfl
  refine ⟨_, hrep, ?_⟩
  intro e
  rw [List.mem_map]
  constructor
  · rintro ⟨r, hr, rfl⟩
    rw [mem_run_query_iff] at hr
    obtain ⟨hmem, huid, hge⟩ := hr
    obtain ⟨hts, hval⟩ := hrows r hmem
    refine ⟨r, hmem, huid, ?_, rfl⟩
    rw [hts] at hge
    exact (sqliteTextGe_isoformat _ _ hval hth).mp hge
  · rintro ⟨r, hmem, huid, hle, rfl⟩
    refine ⟨r, ?_, rfl⟩
    rw [mem_run_query_iff]
    obtain ⟨hts, hval⟩ := hrows r hmem
    refine ⟨hmem, huid, ?_⟩
    rw [hts]
    exact (sqliteTextGe_isoformat _ _ hval hth).mpr hle

theorem get_reports_exact_window_witness :
    (∀ r ∈ (DBState.mk true
        [⟨1, isoformat ⟨2025, 1, 1, 0, 0, 5, 0⟩, "u1", "login"⟩] 2).rows,
      r.eventtimestamputc = isoformat ⟨2025, 1, 1, 0, 0, 5, 0⟩ ∧
        (UTCTime.mk 2025 1 1 0 0 5 0).valid) ∧
    (subSeconds ⟨2025, 1, 1, 0, 0, 10, 0⟩ 60).valid ∧
    (∃ evs, get_reports ⟨2025, 1, 1, 0, 0, 10, 0⟩
        (DBState.mk true
          [⟨1, isoformat ⟨2025, 1, 1, 0, 0, 5, 0⟩, "u1", "login"⟩] 2)
        ⟨60, "u1"⟩ = Except.ok ⟨"success", evs⟩ ∧
      ∀ e, e ∈ evs ↔ ∃ r, r ∈ (DBState.mk true
          [⟨1, isoformat ⟨2025, 1, 1, 0, 0, 5, 0⟩, "u1", "login"⟩] 2).rows ∧
        r.userid = "u1" ∧
        chronoLeP (subSeconds ⟨2025, 1, 1, 0, 0, 10, 0⟩ 60)
          ⟨2025, 1, 1, 0, 0, 5, 0⟩ ∧
        e = ⟨r.eventtimestamputc, r.userid, r.eventname⟩) :=
  ⟨by decide, by decide,
    get_reports_exact_window ⟨2025, 1, 1, 0, 0, 10, 0⟩
      (DBState.mk true
        [⟨1, isoformat ⟨2025, 1, 1, 0, 0, 5, 0⟩, "u1", "login"⟩] 2)
      ⟨60, "u1"⟩ (fun _ => ⟨2025, 1, 1, 0, 0, 5, 0⟩)
      (by decide) (by decide)⟩

/-- C1: submitting an event and then querying the same `userid` with a
window whose threshold lies at or before the submission instant returns a
result set containing an event with the submitted `userid` and
`eventname`. -/
theorem submit_then_query_round_trip
    (db : DBState) (event_data : EventInput) (tSub now : UTCTime) (secs : Int)
    (hsub : tSub.valid) (hth : (subSeconds now secs).valid)
    (hwin : chronoLeP (subSeconds now secs) tSub) :
    ∃ evs, get_reports now (process_event tSub db event_data).1
        ⟨secs, event_data.userid⟩ = Except.ok ⟨"success", evs⟩ ∧
      ∃ e, e ∈ evs ∧ e.userid = event_data.userid ∧
        e.eventname = event_data.eventname := by
  refine ⟨_, rfl, ?_⟩
  refine ⟨⟨isoformat tSub, event_data.userid, event_data.eventname⟩, ?_, rfl, rfl⟩
  rw [List.mem_map]
  refine ⟨⟨db.nextId, isoformat tSub, event_data.userid, event_data.eventname⟩,
    ?_, rfl⟩
  rw [mem_run_query_iff]
  refine ⟨?_, rfl, ?_⟩
  · simp [process_event]
  · exact (sqliteTextGe_isoformat _ _ hsub hth).mpr hwin

theorem submit_then_query_round_trip_witness :
    (UTCTime.mk 2025 1 1 0 0 5 0).valid ∧
    (subSeconds ⟨2025, 1, 1, 0, 0, 10, 0⟩ 60).valid ∧
    chronoLeP (subSeconds ⟨2025, 1, 1, 0, 0, 10, 0⟩ 60) ⟨2025, 1, 1, 0, 0, 5, 0⟩ ∧
    (∃ evs, get_reports ⟨2025, 1, 1, 0, 0, 10, 0⟩
        (process_event ⟨2025, 1, 1, 0, 0, 5, 0⟩ (DBState.mk true [] 1)
          ⟨"u1", "login"⟩).1 ⟨60, "u1"⟩ = Except.ok ⟨"success", evs⟩ ∧
      ∃ e, e ∈ evs ∧ e.userid = "u1" ∧ e.eventname = "login") :=
  ⟨by decide, by decide, by decide,
    submit_then_query_round_trip (DBState.mk true [] 1) ⟨"u1", "login"⟩
      ⟨2025, 1, 1, 0, 0, 5, 0⟩ ⟨2025, 1, 1, 0, 0, 10, 0⟩ 60
      (by decide) (by decide) (by decide)⟩

/-- C4 counterexample: a query with lastseconds = -5 passes pydantic
validation (the field is a plain int) and is answered with a success
response by `get_reports`, so a negative window is not rejected as a
client input error. -/
theorem negative_lastseconds_cex :
    parseReportInput [("lastseconds", Json.int (-5)), ("userid", Json.str "u1")] =
      some ⟨-5, "u1"⟩ ∧
    get_reports ⟨2024, 6, 15, 12, 0, 0, 0⟩ (DBState.mk true [] 1) ⟨-5, "u1"⟩ =
      Except.ok ⟨"success", []⟩ :=
  ⟨rfl, rfl⟩

/-- C4 amended: a negative lastseconds is accepted by validation (the
pydantic field is a plain int), and whenever the computed threshold
`now - lastseconds` remains a representable datetime the request is
processed through the normal query path (its threshold merely lies in the
future), producing a success response rather than a client-error
rejection. Thresholds past the datetime range raise OverflowError inside
the try block and surface as a 500 server error, which is still not a
client-error rejection. -/
theorem negative_lastseconds_normal_query (n : Int) (u : String)
    (now : UTCTime) (db : DBState) (h : n < 0)
    (hth : (subSeconds now n).valid) :
    parseReportInput [("lastseconds", Json.int n), ("userid", Json.str u)] =
      some ⟨n, u⟩ ∧
    ∃ evs, get_reports now db ⟨n, u⟩ = Except.ok ⟨"success", evs⟩ := by
  refine ⟨rfl, ?_⟩
  have hrep : get_reports now db ⟨n, u⟩ = Except.ok ⟨"success",
      (run_query now db ⟨n, u⟩).map
        (fun r => EventOutput.mk r.eventtimestamputc r.userid r.eventname)⟩ := rfl
  exact ⟨_, hrep⟩

theorem negative_lastseconds_normal_query_witness :
    (-5 : Int) < 0 ∧
    (subSeconds ⟨2024, 6, 15, 12, 0, 0, 0⟩ (-5)).valid ∧
    (parseReportInput [("lastseconds", Json.int (-5)), ("userid", Json.str "u2")] =
        some ⟨-5, "u2"⟩ ∧
      ∃ evs, get_reports ⟨2024, 6, 15, 12, 0, 0, 0⟩ (DBState.mk true [] 1)
          ⟨-5, "u2"⟩ = Except.ok ⟨"success", evs⟩) :=
  ⟨by decide, by decide,
    negative_lastseconds_normal_query (-5) "u2" ⟨2024, 6, 15, 12, 0, 0, 0⟩
      (DBState.mk true [] 1) (by decide) (by decide)⟩

/-- C5 counterexample: the 500 response produced on a storage failure is
not generic — it varies with the underlying exception text (its detail is
exactly str(e)), so internal diagnostic detail is leaked to the caller. -/
theorem storage_error_detail_not_generic_cex :
    ¬ ∀ e1 e2 : String,
        get_reports_core (Except.error e1) = get_reports_core (Except.error e2) := by
  intro h
  have h2 := h "disk I/O error" "database is locked"
  simp [get_reports_core] at h2

/-- C5 amended: a storage failure during a query is surfaced as a 500
server-error response whose detail is the underlying exception's own
message (str(e), leaked rather than generic), and the response remains
distinguishable from a successful empty result. -/
theorem storage_error_500_response (e : String) :
    get_reports_core (Except.error e) = Except.error ⟨500, e⟩ ∧
    ∀ evs, (Except.error ⟨500, e⟩ : Except HTTPError ReportOutput) ≠
      Except.ok ⟨"success", evs⟩ :=
  ⟨rfl, fun _ h => Except.noConfusion h⟩

theorem storage_error_500_response_witness :
    get_reports_core (Except.error "disk I/O error") =
      Except.error ⟨500, "disk I/O error"⟩ ∧
    (Except.error ⟨500, "disk I/O error"⟩ : Except HTTPError ReportOutput) ≠
      Except.ok ⟨"success", []⟩ :=
  ⟨(storage_error_500_response "disk I/O error").1,
    (storage_error_500_response "disk I/O error").2 []⟩

/-- C6: a submit request missing userid, missing eventname, or carrying a
non-string value for either field is rejected with the 422 validation
response before the handler runs, and the stored event log is left
unchanged. -/
theorem submit_validation_rejects (now : UTCTime) (db : DBState)
    (body : List (String × Json))
    (h : jsonLookup body "userid" = none ∨ jsonLookup body "eventname" = none ∨
      (∃ j, jsonLookup body "userid" = some j ∧ j.isStr = false) ∨
      (∃ j, jsonLookup body "eventname" = some j ∧ j.isStr = false)) :
    handle_process_event now db body =
      (db, Except.error ⟨422, "validation error"⟩) := by
  have hp : parseEventInput body = none := by
    unfold parseEventInput
    rcases hU : jsonLookup body "userid" with _ | ju
    · rcases hE : jsonLookup body "eventname" with _ | je
      · rfl
      · cases je <;> rfl
    · rcases hE : jsonLookup body "eventname" with _ | je
      · cases ju <;> rfl
      · rcases h with h | h | ⟨j, hj, hs⟩ | ⟨j, hj, hs⟩
        · rw [hU] at h; cases h
        · rw [hE] at h; cases h
        · rw [hU] at hj
          injection hj with hj
          subst hj
          cases ju <;> cases je <;> first | rfl | simp [Json.isStr] at hs
        · rw [hE] at hj
          injection hj with hj
          subst hj
          cases ju <;> cases je <;> first | rfl | simp [Json.isStr] at hs
  unfold handle_process_event
  rw [hp]

theorem submit_validation_rejects_witness :
    (∃ j, jsonLookup [("userid", Json.int 12345), ("eventname", Json.str "test_event")]
        "userid" = some j ∧ j.isStr = false) ∧
    handle_process_event ⟨2025, 1, 1, 0, 0, 5, 0⟩ (DBState.mk true [] 1)
        [("userid", Json.int 12345), ("eventname", Json.str "test_event")] =
      (DBState.mk true [] 1, Except.error ⟨422, "validation error"⟩) :=
  ⟨⟨Json.int 12345, rfl, rfl⟩,
    submit_validation_rejects _ _ _
      (Or.inr (Or.inr (Or.inl ⟨Json.int 12345, rfl, rfl⟩)))⟩

/-- C7: the submit operation stores and echoes `userid` and `eventname`
byte-for-byte unchanged for every string (the INSERT binds them as data via
`?` placeholders), and the existence of the events table is unaffected by
their content. -/
theorem submit_opaque_byte_fidelity (now : UTCTime) (db : DBState)
    (u e : String) :
    (process_event now db ⟨u, e⟩).1.rows =
      db.rows ++ [⟨db.nextId, isoformat now, u, e⟩] ∧
    (process_event now db ⟨u, e⟩).2.userid = u ∧
    (process_event now db ⟨u, e⟩).2.eventname = e ∧
    (process_event now db ⟨u, e⟩).1.tableCreated = db.tableCreated :=
  ⟨rfl, rfl, rfl, rfl⟩

theorem submit_opaque_byte_fidelity_witness :
    (process_event ⟨2025, 1, 1, 0, 0, 5, 0⟩ (DBState.mk true [] 1)
        ⟨"test_user'; DROP TABLE events; --", "test_event"⟩).1.rows =
      (DBState.mk true [] 1).rows ++
        [⟨1, isoformat ⟨2025, 1, 1, 0, 0, 5, 0⟩,
          "test_user'; DROP TABLE events; --", "test_event"⟩] ∧
    (process_event ⟨2025, 1, 1, 0, 0, 5, 0⟩ (DBState.mk true [] 1)
        ⟨"test_user'; DROP TABLE events; --", "test_event"⟩).2.userid =
      "test_user'; DROP TABLE events; --" ∧
    (process_event ⟨2025, 1, 1, 0, 0, 5, 0⟩ (DBState.mk true [] 1)
        ⟨"test_user'; DROP TABLE events; --", "test_event"⟩).2.eventname =
      "test_event" ∧
    (process_event ⟨2025, 1, 1, 0, 0, 5, 0⟩ (DBState.mk true [] 1)
        ⟨"test_user'; DROP TABLE events; --", "test_event"⟩).1.tableCreated =
      (DBState.mk true [] 1).tableCreated :=
  submit_opaque_byte_fidelity ⟨2025, 1, 1, 0, 0, 5, 0⟩ (DBState.mk true [] 1)
    "test_user'; DROP TABLE events; --" "test_event"

/-- C9: every sequence of in-scope operations (table creation, submit,
query) preserves every previously stored row unchanged at its index, and a
submit only appends a single new row. -/
theorem append_only_log (ops : List Op) (db : DBState) :
    (∀ i, i < db.rows.length → ((ops.foldl step db).rows)[i]? = db.rows[i]?) ∧
    (∀ (now : UTCTime) (db2 : DBState) (event_data : EventInput),
      (process_event now db2 event_data).1.rows =
        db2.rows ++ [⟨db2.nextId, isoformat now, event_data.userid,
          event_data.eventname⟩]) := by
  constructor
  · induction ops generalizing db with
    | nil => intro i hi; rfl
    | cons op rest ih =>
      intro i hi
      rw [List.foldl_cons]
      obtain ⟨tail, htail⟩ := step_rows_extend db op
      have hlen : db.rows.length ≤ (step db op).rows.length := by
        rw [htail]; simp
      rw [ih (step db op) i (lt_of_lt_of_le hi hlen), htail,
        List.getElem?_append, if_pos hi]
  · intro now db2 event_data
    rfl

theorem append_only_log_witness :
    0 < (DBState.mk true [⟨1, "t", "u", "e"⟩] 2).rows.length ∧
    (([Op.createTable].foldl step (DBState.mk true [⟨1, "t", "u", "e"⟩] 2)).rows)[0]? =
      (DBState.mk true [⟨1, "t", "u", "e"⟩] 2).rows[0]? :=
  ⟨by decide,
    (append_only_log [Op.createTable] (DBState.mk true [⟨1, "t", "u", "e"⟩] 2)).1
      0 (by decide)⟩

/-- C10: the timestamp echoed in the submit success response is exactly the
string persisted in the inserted row: a single `isoformat` value computed
before the INSERT is both stored and returned. -/
theorem submit_echoes_stored_timestamp (now : UTCTime) (db : DBState)
    (event_data : EventInput) :
    (process_event now db event_data).1.rows =
      db.rows ++ [⟨db.nextId,
        (process_event now db event_data).2.eventtimestamputc,
        event_data.userid, event_data.eventname⟩] ∧
    (process_event now db event_data).2.eventtimestamputc = isoformat now :=
  ⟨rfl, rfl⟩

end AnalyticsServer
